import Mathlib

set_option linter.unusedVariables false

/-!
Shallow embedding of the load generator in src/quic.go and proofs about it.

The program runs N worker goroutines that wait on a shared rate-limiter tick
or on context cancellation, send one HTTP request per tick, and push the
resulting status code onto a buffered channel of capacity 100.  A separate
goroutine ticks every second and drains the channel into a per-window tally
(logStatusCounts).  After the deadline, main waits for all workers and closes
the channel.

The embedding below gives the sequential semantics of each of these pieces:
the drain loop of logStatusCounts over an explicit queue, an event-step model
of the aggregator goroutine, a program-counter step function for one worker
goroutine, a transition system for the shutdown discipline of main, the
configuration checks of main, and the request construction of sendRequest.
-/

namespace Quic

/-- The Go map statusCounts, represented as an association list from status
code to count (src/quic.go line 157). -/
abbrev StatusMap := List (Nat × Nat)

/-- The map update statusCounts[statusCode]++ of src/quic.go line 167:
increment the count stored for code c, inserting it with count 1 when the
code has not been seen before. -/
def bump : StatusMap → Nat → StatusMap
  | [], c => [(c, 1)]
  | (k, v) :: rest, c =>
    if k = c then (k, v + 1) :: rest else (k, v) :: bump rest c

/-- Map lookup: the count recorded for code c, 0 when absent. -/
def countOf : StatusMap → Nat → Nat
  | [], _ => 0
  | (k, v) :: rest, c => if k = c then v else countOf rest c

/-- Sum of all bucket counts held in a tally. -/
def mapTotal (m : StatusMap) : Nat := (m.map Prod.snd).sum

/-- The drain loop of logStatusCounts (src/quic.go lines 161-175), sequential
semantics over an explicit queue: each iteration performs a non-blocking
receive (taking the head when the queue is non-empty, tallying it and
incrementing the total), then stops as soon as len(statusChan) == 0.  The
result is the pair (tally map, total) together with the queue left behind. -/
def drainLoop : List Nat → StatusMap → Nat → (StatusMap × Nat) × List Nat
  | [], m, total => ((m, total), [])
  | c :: rest, m, total =>
    if rest.length = 0 then ((bump m c, total + 1), [])
    else drainLoop rest (bump m c) (total + 1)

/-- logStatusCounts (src/quic.go lines 156-175): run the drain loop starting
from a fresh empty map and a zero total. -/
def logStatusCounts (queue : List Nat) : (StatusMap × Nat) × List Nat :=
  drainLoop queue [] 0

/-- An event visible to the aggregation subsystem: a worker push of a status
code onto statusChan, a 1-second ticker firing for the aggregator goroutine,
or the context deadline firing (ctx.Done). -/
inductive Event
  | push (code : Nat)
  | tick
  | cancel
deriving DecidableEq

/-- State of statusChan plus the aggregator goroutine of src/quic.go lines
62-74: the channel contents, the reports emitted so far (one per completed
call of logStatusCounts), and whether the goroutine has returned. -/
structure AggState where
  queue : List Nat
  reports : List (StatusMap × Nat)
  aggDone : Bool
deriving DecidableEq

/-- One event of the aggregation subsystem.  A push appends to the channel; a
ticker fire runs logStatusCounts (unless the goroutine has already returned);
ctx.Done makes the goroutine return at once, with no further drain
(src/quic.go lines 67-69). -/
def aggStep (s : AggState) : Event → AggState
  | .push c => { s with queue := s.queue ++ [c] }
  | .tick =>
    if s.aggDone then s
    else
      let r := logStatusCounts s.queue
      { s with queue := r.2, reports := s.reports ++ [r.1] }
  | .cancel => { s with aggDone := true }

/-- Process a whole sequence of events. -/
def runEvents : AggState → List Event → AggState
  | s, [] => s
  | s, e :: es => runEvents (aggStep s e) es

/-- Initial state: empty channel, no reports, aggregator running. -/
def aggInit : AggState := ⟨[], [], false⟩

/-- Sum of the per-window totals over a list of reports. -/
def sumTotals (rs : List (StatusMap × Nat)) : Nat := (rs.map Prod.snd).sum

/-- Number of push events in an event sequence. -/
def countPushes : List Event → Nat
  | [] => 0
  | .push _ :: es => countPushes es + 1
  | .tick :: es => countPushes es
  | .cancel :: es => countPushes es

/-- What sendRequest returns to the worker loop: a status code or an error. -/
inductive ReqResult
  | ok (status : Nat)
  | err (reason : String)
deriving DecidableEq

/-- Program counter of one worker goroutine (src/quic.go lines 79-94):
blocked in the select at the top of the loop, blocked on the channel send
statusChan <- statusCode, or returned. -/
inductive WorkerPC
  | loopSelect
  | pushing (status : Nat)
  | exited
deriving DecidableEq

/-- State of one worker goroutine together with the channel it pushes to. -/
structure WState where
  pc : WorkerPC
  chan : List Nat
deriving DecidableEq

/-- Capacity of statusChan (src/quic.go line 59). -/
def chanCap : Nat := 100

/-- One step of the worker goroutine of src/quic.go lines 79-94.  The inputs
cancelled and permit say whether ctx.Done() and the rate-limiter tick are
ready; result is what sendRequest returns when it is called.  In the select,
cancellation makes the worker return; a permit triggers one request, after
which an error is logged and the loop restarts, while a status code moves the
worker to the channel send.  The send at line 90 completes only when the
channel has room; a worker blocked there has no other enabled behavior: the
send is not paired with any cancellation check. -/
def workerStep (cancelled permit : Bool) (result : ReqResult) (s : WState) :
    Option WState :=
  match s.pc with
  | .exited => none
  | .loopSelect =>
    if cancelled then some { s with pc := .exited }
    else if permit then
      match result with
      | .ok status => some { s with pc := .pushing status }
      | .err _ => some s
    else none
  | .pushing status =>
    if s.chan.length < chanCap then
      some { pc := .loopSelect, chan := s.chan ++ [status] }
    else none

/-- Shutdown state of main (src/quic.go lines 97-99): how many workers have
not yet returned (the WaitGroup counter), whether statusChan has been closed,
and how many pushes have happened after the close. -/
structure CoordState where
  activeWorkers : Nat
  chanClosed : Bool
  pushesAfterClose : Nat
deriving DecidableEq

/-- Transitions of the shutdown protocol.  A push is performed by a worker
that has not yet returned (the send at line 90 precedes the deferred
wg.Done()).  A worker return decrements the WaitGroup counter.  The close at
line 99 runs once, strictly after wg.Wait() returns, hence only when the
counter is zero. -/
inductive CoordStep : CoordState → CoordState → Prop
  | workerPush (s : CoordState) (h : 0 < s.activeWorkers) :
      CoordStep s { s with pushesAfterClose :=
        if s.chanClosed then s.pushesAfterClose + 1 else s.pushesAfterClose }
  | workerDone (s : CoordState) (h : 0 < s.activeWorkers) :
      CoordStep s { s with activeWorkers := s.activeWorkers - 1 }
  | closeChan (s : CoordState) (h0 : s.activeWorkers = 0)
      (h1 : s.chanClosed = false) :
      CoordStep s { s with chanClosed := true }

/-- States reachable from the start of a run with n workers. -/
inductive CoordReachable (n : Nat) : CoordState → Prop
  | init : CoordReachable n ⟨n, false, 0⟩
  | step {s t : CoordState} :
      CoordReachable n s → CoordStep s t → CoordReachable n t

/-- The configuration errors main can report (src/quic.go lines 38-46). -/
inductive ConfigError
  | missingURL
  | invalidURL
deriving DecidableEq

/-- The configuration checks of main (src/quic.go lines 38-46): the URL must
be non-empty and must parse.  The rate limit is passed in but never looked
at: no validation of it exists in the program. -/
def validateConfig (urlStr : String) (urlParses : Bool) (rateLimit : Int) :
    Except ConfigError Unit :=
  if urlStr = "" then .error .missingURL
  else if urlParses = false then .error .invalidURL
  else .ok ()

/-- What the rate-limiter construction at src/quic.go line 53 produces:
time.Second / time.Duration(rateLimit) is Go integer division, which panics
when the divisor is 0; time.Tick of a non-positive interval returns a nil
channel whose receive never fires. -/
inductive TickerSetup
  | divideByZeroPanic
  | nilChannel
  | ticksEvery (nanos : Int)
deriving DecidableEq

/-- Nanoseconds in time.Second. -/
def nanosPerSecond : Int := 1000000000

/-- Model of line 53: rateLimiter := time.Tick(time.Second /
time.Duration(rateLimit)), with Go division truncating toward zero. -/
def makeRateLimiter (rateLimit : Int) : TickerSetup :=
  if rateLimit = 0 then .divideByZeroPanic
  else if Int.tdiv nanosPerSecond rateLimit ≤ 0 then .nilChannel
  else .ticksEvery (Int.tdiv nanosPerSecond rateLimit)

/-- The request body built by sendRequest: the gzip compression of a fixed
string (src/quic.go lines 105-111).  Compression itself is outside the model;
the constructor records which raw string was compressed. -/
inductive Payload
  | gzipOf (raw : String)
deriving DecidableEq

/-- The client chosen by the scheme switch of sendRequest (lines 124-138). -/
inductive Transport
  | http3RoundTripper
  | http2Transport (insecureSkipVerify : Bool)
  | defaultClient
deriving DecidableEq

/-- The request value built by sendRequest before sending (lines 105-121):
method and URL as given, the two headers set at lines 120-121, and the fixed
gzip body. -/
structure HttpRequest where
  method : String
  url : String
  headers : List (String × String)
  body : Payload
deriving DecidableEq

/-- Request construction of sendRequest (src/quic.go lines 103-121). -/
def buildRequest (targetURL : String) (method : String) : HttpRequest :=
  { method := method
    url := targetURL
    headers := [("Content-Encoding", "gzip"), ("Content-Type", "application/json")]
    body := .gzipOf "This is a stress test payload" }

/-- The scheme switch of sendRequest (src/quic.go lines 124-138). -/
def pickClient (scheme : String) : Transport :=
  if scheme = "https" then .http3RoundTripper
  else if scheme = "h2" then .http2Transport true
  else .defaultClient

/-! Helper lemmas about the drain loop and the tally map. -/

/-- The drain loop consumes the whole queue it is given. -/
theorem drainLoop_leftover (q : List Nat) :
    ∀ m t, (drainLoop q m t).2 = [] := by
  induction q with
  | nil => intro m t; rfl
  | cons c rest ih =>
    intro m t
    cases rest with
    | nil => rfl
    | cons d tail => simpa [drainLoop] using ih (bump m c) (t + 1)

/-- Unfolding equation for the drain loop on a non-empty queue. -/
theorem drainLoop_cons (c : Nat) (rest : List Nat) (m : StatusMap) (t : Nat) :
    drainLoop (c :: rest) m t =
      if rest.length = 0 then ((bump m c, t + 1), [])
      else drainLoop rest (bump m c) (t + 1) := by
  rw [drainLoop]

/-- The drain loop adds exactly the length of the queue to the total. -/
theorem drainLoop_total (q : List Nat) :
    ∀ m t, (drainLoop q m t).1.2 = t + q.length := by
  induction q with
  | nil => intro m t; simp [drainLoop]
  | cons c rest ih =>
    intro m t
    rw [drainLoop_cons]
    cases rest with
    | nil => simp
    | cons d tail =>
      rw [if_neg (by simp)]
      rw [ih (bump m c) (t + 1)]
      simp only [List.length_cons]
      omega

/-- Incrementing one bucket raises the sum of all buckets by one. -/
theorem bump_mapTotal (m : StatusMap) (c : Nat) :
    mapTotal (bump m c) = mapTotal m + 1 := by
  induction m with
  | nil => simp [bump, mapTotal]
  | cons kv rest ih =>
    obtain ⟨k, v⟩ := kv
    by_cases h : k = c
    · simp [bump, h, mapTotal]
      omega
    · simp only [bump, if_neg h]
      simp only [mapTotal, List.map_cons, List.sum_cons] at ih ⊢
      omega

/-- Incrementing a bucket raises the count of that bucket by one. -/
theorem countOf_bump_same (m : StatusMap) (c : Nat) :
    countOf (bump m c) c = countOf m c + 1 := by
  induction m with
  | nil => simp [bump, countOf]
  | cons kv rest ih =>
    obtain ⟨k, v⟩ := kv
    by_cases h : k = c
    · simp [bump, countOf, h]
    · simp [bump, countOf, h, ih]

/-- Incrementing a bucket leaves every other bucket unchanged. -/
theorem countOf_bump_other (m : StatusMap) (c d : Nat) (hdc : d ≠ c) :
    countOf (bump m c) d = countOf m d := by
  induction m with
  | nil => simp [bump, countOf, Ne.symm hdc]
  | cons kv rest ih =>
    obtain ⟨k, v⟩ := kv
    by_cases h : k = c
    · subst h
      simp [bump, countOf, Ne.symm hdc]
    · by_cases hkd : k = d
      · subst hkd
        simp [bump, countOf, h]
      · simp [bump, countOf, h, hkd, ih]

/-- Loop invariant of the drain loop: if the running total equals the sum of
all buckets on entry, it still does on exit. -/
theorem drainLoop_total_eq_mapTotal :
    ∀ (q : List Nat) (m : StatusMap) (t : Nat), t = mapTotal m →
      (drainLoop q m t).1.2 = mapTotal (drainLoop q m t).1.1 := by
  intro q
  induction q with
  | nil => intro m t h; simpa [drainLoop] using h
  | cons c rest ih =>
    intro m t h
    rw [drainLoop_cons]
    cases rest with
    | nil =>
      show t + 1 = mapTotal (bump m c)
      rw [bump_mapTotal]
      omega
    | cons d tail =>
      rw [if_neg (by simp)]
      exact ih (bump m c) (t + 1) (by rw [bump_mapTotal]; omega)

/-- Appending one report adds its total to the sum of totals. -/
theorem sumTotals_append (rs : List (StatusMap × Nat)) (x : StatusMap × Nat) :
    sumTotals (rs ++ [x]) = sumTotals rs + x.2 := by
  simp [sumTotals]

/-- Conservation through the aggregation subsystem: processing any event
sequence changes (sum of report totals + queue length) by exactly the number
of pushes in the sequence. -/
theorem runEvents_conservation :
    ∀ (es : List Event) (s : AggState),
      sumTotals (runEvents s es).reports + (runEvents s es).queue.length
        = sumTotals s.reports + s.queue.length + countPushes es := by
  intro es
  induction es with
  | nil => intro s; simp [runEvents, countPushes]
  | cons e rest ih =>
    intro s
    have hstep : runEvents s (e :: rest) = runEvents (aggStep s e) rest := rfl
    rw [hstep, ih (aggStep s e)]
    cases e with
    | push c =>
      simp [aggStep, countPushes]
      omega
    | tick =>
      cases hd : s.aggDone with
      | true => simp [aggStep, hd, countPushes]
      | false =>
        simp only [aggStep, hd, Bool.false_eq_true, if_neg, countPushes]
        rw [if_neg (by simp)]
        simp only [logStatusCounts, sumTotals_append, drainLoop_leftover,
          List.length_nil]
        rw [drainLoop_total]
        omega
    | cancel => simp [aggStep, countPushes]

/-- Inductive invariant of the shutdown protocol: once the channel is closed
no worker is still active, and no push ever happens after the close. -/
theorem coordInvariant {n : Nat} :
    ∀ {s : CoordState}, CoordReachable n s →
      (s.chanClosed = true → s.activeWorkers = 0) ∧ s.pushesAfterClose = 0 := by
  intro s h
  induction h with
  | init => exact ⟨fun hc => absurd hc (by simp), rfl⟩
  | @step u t h1 h2 ih =>
    obtain ⟨ih1, ih2⟩ := ih
    cases h2 with
    | workerPush hpos =>
      refine ⟨fun hc => ih1 hc, ?_⟩
      cases hcl : u.chanClosed with
      | true => exact absurd (ih1 hcl) (by omega)
      | false => simpa using ih2
    | workerDone hpos =>
      refine ⟨fun hc => ?_, ih2⟩
      have h0 := ih1 hc
      show u.activeWorkers - 1 = 0
      omega
    | closeChan h0 hopen => exact ⟨fun _ => h0, ih2⟩

/-! The claims. -/

/-- C1 counterexample.  In the run where a worker pushes 200, the aggregator
ticks once, a worker pushes 503, and then cancellation fires, the sum of all
per-window tallies is 1 while 2 Outcomes were pushed and none was dropped by
any documented policy: the second Outcome sits in the channel untallied,
because the aggregator exits on cancellation without a final drain.  So the
sum of per-window tallies plus the (nonexistent, hence zero) final drain
tally differs from N. -/
theorem c1_missing_final_drain_cex :
    sumTotals (runEvents aggInit
        [Event.push 200, Event.tick, Event.push 503, Event.cancel]).reports
      ≠ countPushes [Event.push 200, Event.tick, Event.push 503, Event.cancel]
    ∧ (runEvents aggInit
        [Event.push 200, Event.tick, Event.push 503, Event.cancel]).queue
      = [503] := by
  constructor
  · decide
  · rfl

/-- C1 (amended).  For every event sequence of a run, the sum of all
per-window tallies equals the number of Outcomes pushed minus the Outcomes
still sitting in the Result Channel at the end: no Outcome is double-counted,
but the Outcomes left in the channel when cancellation fires are lost, since
no final drain exists. -/
theorem c1_window_sum_conservation (es : List Event) :
    sumTotals (runEvents aggInit es).reports
        + (runEvents aggInit es).queue.length
      = countPushes es := by
  have h := runEvents_conservation es aggInit
  simpa [aggInit, sumTotals] using h

/-- C2 counterexample.  With cancellation already fired and the channel full
(100 entries, its capacity), a worker standing at its channel send has no
enabled step at all: it cannot push, cannot drop the Outcome, and cannot
observe cancellation, contradicting the claim that it drops or stays
cancellation-responsive and exits promptly. -/
theorem c2_blocked_push_cex :
    workerStep true true (ReqResult.ok 200)
      ⟨WorkerPC.pushing 200, List.replicate chanCap 200⟩ = none := rfl

/-- C2 (amended).  A worker whose channel send finds the channel full is
stuck regardless of cancellation or permits: no step is enabled for it.  And
once the aggregator has returned, ticker fires drain nothing, so a full
channel stays full: the worker can stay blocked past the deadline. -/
theorem c2_full_channel_blocks :
    (∀ (cancelled permit : Bool) (r : ReqResult) (c : Nat),
      workerStep cancelled permit r
        ⟨WorkerPC.pushing c, List.replicate chanCap 200⟩ = none)
    ∧ (∀ (q : List Nat) (rs : List (StatusMap × Nat)),
      aggStep ⟨q, rs, true⟩ Event.tick = ⟨q, rs, true⟩) :=
  ⟨fun _ _ _ _ => rfl, fun _ _ => rfl⟩

/-- C3 counterexample.  In the run where a worker pushes 200 and then
cancellation fires, the aggregator exits having emitted no report at all: no
final drain-and-report happens, no cumulative total is emitted, and the
pushed Outcome stays in the channel. -/
theorem c3_cancel_without_drain_cex :
    (runEvents aggInit [Event.push 200, Event.cancel]).reports = []
    ∧ (runEvents aggInit [Event.push 200, Event.cancel]).queue = [200] :=
  ⟨rfl, rfl⟩

/-- C3 (amended).  On observing cancellation the aggregator returns at once,
leaving its reports unchanged (no final drain or report); each periodic
report is computed by logStatusCounts from a fresh empty tally with a zero
total, so no cumulative total across windows exists. -/
theorem c3_no_final_report :
    (∀ s : AggState, aggStep s Event.cancel = { s with aggDone := true })
    ∧ (∀ (q : List Nat) (rs : List (StatusMap × Nat)),
      aggStep ⟨q, rs, false⟩ Event.tick
        = ⟨(logStatusCounts q).2, rs ++ [(logStatusCounts q).1], false⟩)
    ∧ (∀ q : List Nat, (logStatusCounts q).2 = []) :=
  ⟨fun _ => rfl, fun _ _ => rfl, fun q => drainLoop_leftover q [] 0⟩

/-- C4 counterexample.  A request attempt that ends in an error pushes
nothing onto the Result Channel: the worker goes straight back to the top of
its loop and the channel still holds 0 Outcomes, not 1.  (The channel carries
bare integer status codes, so no Failure value could be pushed at all.) -/
theorem c4_error_outcome_cex :
    (workerStep false true (ReqResult.err "connection refused")
        ⟨WorkerPC.loopSelect, []⟩).map (fun s => s.chan.length) = some 0
    ∧ (some 0 : Option Nat) ≠ some 1 := by
  exact ⟨rfl, by decide⟩

/-- C4 (amended).  Per request attempt: an attempt that returns an error
logs it and pushes nothing (the channel is unchanged); an attempt that
returns a status code moves the worker to the channel send, and completing
that send appends exactly that one status code to the channel. -/
theorem c4_one_push_on_success (chan : List Nat) (status : Nat)
    (reason : String) :
    workerStep false true (ReqResult.err reason) ⟨WorkerPC.loopSelect, chan⟩
      = some ⟨WorkerPC.loopSelect, chan⟩
    ∧ workerStep false true (ReqResult.ok status) ⟨WorkerPC.loopSelect, chan⟩
      = some ⟨WorkerPC.pushing status, chan⟩
    ∧ (chan.length < chanCap →
      ∀ (cancelled permit : Bool) (r : ReqResult),
        workerStep cancelled permit r ⟨WorkerPC.pushing status, chan⟩
          = some ⟨WorkerPC.loopSelect, chan ++ [status]⟩) := by
  refine ⟨rfl, rfl, ?_⟩
  intro h cancelled permit r
  simp [workerStep, h]

/-- Witness for C4 (amended): with a non-full channel the completed send
appends exactly the one status code. -/
theorem c4_one_push_on_success_witness :
    workerStep false false (ReqResult.ok 200) ⟨WorkerPC.pushing 200, []⟩
      = some ⟨WorkerPC.loopSelect, [200]⟩ :=
  (c4_one_push_on_success [] 200 "x").2.2 (by decide) false false
    (ReqResult.ok 200)

/-- C5 counterexample.  A configuration with a valid URL and rate -5 passes
the configuration checks of main: no InvalidConfig error is reported for a
non-positive rate. -/
theorem c5_rate_not_validated_cex :
    validateConfig "https://example.com" true (-5) = Except.ok () := rfl

/-- C5 (amended).  The configuration checks never look at the rate (the
result is the same for any two rates); rate 0 makes the tick-interval
computation divide by zero (a runtime panic at line 53, before workers
start), and a negative rate yields a non-positive interval, for which
time.Tick returns a nil channel that never fires, so the run starts its
workers and they wait out the whole duration doing nothing. -/
theorem c5_rate_unchecked :
    (∀ (u : String) (p : Bool) (r1 r2 : Int),
      validateConfig u p r1 = validateConfig u p r2)
    ∧ makeRateLimiter 0 = TickerSetup.divideByZeroPanic
    ∧ makeRateLimiter (-5) = TickerSetup.nilChannel
    ∧ makeRateLimiter 10 = TickerSetup.ticksEvery 100000000 := by
  refine ⟨fun u p r1 r2 => rfl, rfl, ?_, ?_⟩ <;> decide

/-- C6.  In every reachable state of the shutdown protocol in which the
Result Channel has been closed, every worker has already returned, and the
number of pushes performed after the close is zero. -/
theorem c6_close_only_after_all_workers {n : Nat} {s : CoordState}
    (h : CoordReachable n s) (hc : s.chanClosed = true) :
    s.activeWorkers = 0 ∧ s.pushesAfterClose = 0 :=
  ⟨(coordInvariant h).1 hc, (coordInvariant h).2⟩

/-- Witness for C6: a concrete run with one worker that exits, after which
the coordinator closes the channel. -/
theorem c6_close_only_after_all_workers_witness :
    (⟨0, true, 0⟩ : CoordState).activeWorkers = 0
    ∧ (⟨0, true, 0⟩ : CoordState).pushesAfterClose = 0 :=
  c6_close_only_after_all_workers
    (CoordReachable.step
      (CoordReachable.step CoordReachable.init
        (CoordStep.workerDone ⟨1, false, 0⟩ (by decide)))
      (CoordStep.closeChan ⟨0, false, 0⟩ rfl rfl))
    rfl

/-- C7.  Draining an empty channel returns at once with the tally it started
from unchanged (zero-delta): from a fresh window this is the empty map with
total 0, every bucket count 0, and no receive is performed. -/
theorem c7_empty_drain_zero :
    (∀ (m : StatusMap) (t : Nat), drainLoop [] m t = ((m, t), []))
    ∧ logStatusCounts [] = (([], 0), [])
    ∧ (∀ c : Nat, countOf (logStatusCounts []).1.1 c = 0) :=
  ⟨fun m t => rfl, rfl, fun c => rfl⟩

/-- Helper for C8: with cancellation not fired, no worker step reaches the
exited state. -/
theorem workerStep_no_exit (permit : Bool) (r : ReqResult) (s t : WState)
    (hstep : workerStep false permit r s = some t) :
    t.pc ≠ WorkerPC.exited := by
  obtain ⟨pc, chan⟩ := s
  cases pc with
  | exited => exact absurd hstep (by simp [workerStep])
  | loopSelect =>
    cases permit with
    | false => exact absurd hstep (by simp [workerStep])
    | true =>
      cases r with
      | ok status =>
        have h2 : some (⟨WorkerPC.pushing status, chan⟩ : WState) = some t :=
          hstep
        injection h2 with h3
        subst h3
        exact fun hx => WorkerPC.noConfusion hx
      | err reason =>
        have h2 : some (⟨WorkerPC.loopSelect, chan⟩ : WState) = some t :=
          hstep
        injection h2 with h3
        subst h3
        exact fun hx => WorkerPC.noConfusion hx
  | pushing status =>
    by_cases hlen : chan.length < chanCap
    · have h2 : some (⟨WorkerPC.loopSelect, chan ++ [status]⟩ : WState)
          = some t := by
        rw [← hstep]
        simp [workerStep, hlen]
      injection h2 with h3
      subst h3
      exact fun hx => WorkerPC.noConfusion hx
    · have h2 : (none : Option WState) = some t := by
        rw [← hstep]
        simp [workerStep, hlen]
      exact Option.noConfusion h2

/-- C8.  A request attempt that ends in an error is recovered locally: the
worker logs it and is back at the top of its loop with nothing else changed;
and a worker step can reach the exited state only when the cancellation
signal has fired, so only deadline expiry ends the loop. -/
theorem c8_request_error_recovered :
    (∀ (chan : List Nat) (reason : String),
      workerStep false true (ReqResult.err reason)
          ⟨WorkerPC.loopSelect, chan⟩
        = some ⟨WorkerPC.loopSelect, chan⟩)
    ∧ (∀ (cancelled permit : Bool) (r : ReqResult) (s t : WState),
      workerStep cancelled permit r s = some t →
        t.pc = WorkerPC.exited → cancelled = true) := by
  refine ⟨fun chan reason => rfl, ?_⟩
  intro cancelled permit r s t hstep hexit
  cases cancelled with
  | true => rfl
  | false => exact absurd hexit (workerStep_no_exit permit r s t hstep)

/-- Witness for C8: the error attempt leaves a concrete worker looping, and
the concrete step that does reach the exited state has cancellation fired. -/
theorem c8_request_error_recovered_witness :
    workerStep false true (ReqResult.err "connection refused")
        ⟨WorkerPC.loopSelect, []⟩
      = some ⟨WorkerPC.loopSelect, []⟩
    ∧ (true : Bool) = true :=
  ⟨c8_request_error_recovered.1 [] "connection refused",
   c8_request_error_recovered.2 true false (ReqResult.ok 0)
     ⟨WorkerPC.loopSelect, []⟩ ⟨WorkerPC.exited, []⟩ rfl rfl⟩

/-- C9.  Each tallied status code increments exactly its own bucket and the
total together (other buckets unchanged), and the drain loop preserves the
invariant that the running total equals the sum of all bucket counts; hence
in every report the printed total equals the sum over the buckets. -/
theorem c9_total_equals_bucket_sum :
    (∀ (m : StatusMap) (c : Nat),
      mapTotal (bump m c) = mapTotal m + 1
      ∧ countOf (bump m c) c = countOf m c + 1)
    ∧ (∀ (m : StatusMap) (c d : Nat), d ≠ c →
      countOf (bump m c) d = countOf m d)
    ∧ (∀ (q : List Nat) (m : StatusMap) (t : Nat), t = mapTotal m →
      (drainLoop q m t).1.2 = mapTotal (drainLoop q m t).1.1) :=
  ⟨fun m c => ⟨bump_mapTotal m c, countOf_bump_same m c⟩,
   fun m c d h => countOf_bump_other m c d h,
   drainLoop_total_eq_mapTotal⟩

/-- Witness for C9: on the concrete queue [200, 503, 200] the reported total
equals the sum of the bucket counts, and bumping 200 leaves bucket 503
alone. -/
theorem c9_total_equals_bucket_sum_witness :
    countOf (bump [] 200) 503 = countOf [] 503
    ∧ (drainLoop [200, 503, 200] [] 0).1.2
      = mapTotal (drainLoop [200, 503, 200] [] 0).1.1 :=
  ⟨c9_total_equals_bucket_sum.2.1 [] 200 503 (by decide),
   c9_total_equals_bucket_sum.2.2 [200, 503, 200] [] 0 rfl⟩

/-- C10.  For every method and URL, sendRequest builds the request with
exactly the two headers Content-Encoding: gzip and Content-Type:
application/json, the fixed gzip body of the string
"This is a stress test payload", and the method passed through; the client
is chosen by the scheme alone: https selects the HTTP/3 round tripper, h2
the HTTP/2 transport with TLS verification disabled, and anything else the
default client. -/
theorem c10_request_construction :
    (∀ (targetURL method : String),
      (buildRequest targetURL method).headers
        = [("Content-Encoding", "gzip"), ("Content-Type", "application/json")]
      ∧ (buildRequest targetURL method).body
        = Payload.gzipOf "This is a stress test payload"
      ∧ (buildRequest targetURL method).method = method)
    ∧ pickClient "https" = Transport.http3RoundTripper
    ∧ pickClient "h2" = Transport.http2Transport true
    ∧ (∀ scheme : String, scheme ≠ "https" → scheme ≠ "h2" →
      pickClient scheme = Transport.defaultClient) := by
  refine ⟨fun u m => ⟨rfl, rfl, rfl⟩, by decide, by decide, ?_⟩
  intro scheme h1 h2
  simp [pickClient, h1, h2]

/-- Witness for C10: the http scheme takes the default client, and a GET
request carries the fixed gzip body. -/
theorem c10_request_construction_witness :
    pickClient "http" = Transport.defaultClient
    ∧ (buildRequest "http://example.com" "GET").body
      = Payload.gzipOf "This is a stress test payload" :=
  ⟨c10_request_construction.2.2.2 "http" (by decide) (by decide),
   (c10_request_construction.1 "http://example.com" "GET").2.1⟩

end Quic
